import Mathlib

/-!
Shallow embedding of the ebiten-collider library: the spatial hash
(collider.go: NewSpatialHash, Add, Remove, GetCollisionCandidates,
CheckCollisions, the shape constructors and the Move and MoveTo methods)
and the narrow-phase routines (collisionRectRect, collisionRectCirc,
collisionCircCirc), together with the vector utilities of vector.go.

Modelling conventions:
* float64 positions and sizes are modelled over the rationals; every
  concrete value appearing in the claims is an exact rational, and the
  grid arithmetic (bounds, steps, floor) is exact on them.  The
  square-root based circle geometry is interpreted over the reals.
* Go pointer identity of shapes is modelled by natural-number handles;
  the maps of the SpatialHash (keyed on shape or cell identity) are
  association lists whose lookup and update act on the first matching
  key.  A Cell's member map (map from Shape to Shape, i.e. a set) is a
  duplicate-free list of handles; backref stores cell coordinates, which
  stand for the stable Cell pointers (the Hash never deletes a cell, so
  coordinates and cell pointers are in bijection).
-/

namespace Collider

/-- Vector of vector.go, at the grid layer specialised to rationals. -/
structure Vector where
  x : ℚ
  y : ℚ
deriving DecidableEq

/-- CircleShape of collider.go: a centre position and a radius. -/
structure CircleShape where
  pos : Vector
  radius : ℚ
deriving DecidableEq

/-- RectangleShape of collider.go: a centre position, width and height. -/
structure RectangleShape where
  pos : Vector
  width : ℚ
  height : ℚ
deriving DecidableEq

/-- The runtime variant of a shape value, as distinguished by the Go type
switches: a RectangleShape, a CircleShape, or a PointShape (a distinct
type wrapping a RectangleShape, which a type switch does not treat as a
RectangleShape). -/
inductive ShapeData
  | rectangle (r : RectangleShape)
  | circle (c : CircleShape)
  | point (r : RectangleShape)
deriving DecidableEq

/-- CellCoord of collider.go. -/
structure CellCoord where
  x : ℤ
  y : ℤ
deriving DecidableEq

/-- SpatialHash of collider.go.  Hash and Backref are association lists;
a Cell is a duplicate-free list of shape handles. -/
structure SpatialHash where
  cellSize : ℤ
  hash : List (CellCoord × List ℕ)
  backref : List (ℕ × List CellCoord)
deriving DecidableEq

/-- The error value ErrShapeNotFound of collider.go. -/
inductive GoError
  | shapeNotFound
deriving DecidableEq

/-- GetBounds of RectangleShape: centre plus-minus half extents,
returned as (left, up, right, down). -/
def RectangleShape.getBounds (re : RectangleShape) : ℚ × ℚ × ℚ × ℚ :=
  (re.pos.x - re.width / 2, re.pos.y - re.height / 2,
   re.pos.x + re.width / 2, re.pos.y + re.height / 2)

/-- GetBounds of CircleShape: centre plus-minus radius. -/
def CircleShape.getBounds (ci : CircleShape) : ℚ × ℚ × ℚ × ℚ :=
  (ci.pos.x - ci.radius, ci.pos.y - ci.radius,
   ci.pos.x + ci.radius, ci.pos.y + ci.radius)

/-- GetBounds dispatched on the runtime variant; a PointShape delegates
to its embedded RectangleShape. -/
def ShapeData.getBounds : ShapeData → ℚ × ℚ × ℚ × ℚ
  | .rectangle r => r.getBounds
  | .circle c => c.getBounds
  | .point r => r.getBounds

/-- The position mutation performed by the Move methods (Pos.X += x,
Pos.Y += y), before any grid bookkeeping. -/
def ShapeData.moveBy : ShapeData → ℚ → ℚ → ShapeData
  | .rectangle r, dx, dy => .rectangle { r with pos := ⟨r.pos.x + dx, r.pos.y + dy⟩ }
  | .circle c, dx, dy => .circle { c with pos := ⟨c.pos.x + dx, c.pos.y + dy⟩ }
  | .point r, dx, dy => .point { r with pos := ⟨r.pos.x + dx, r.pos.y + dy⟩ }

/-- The position mutation performed by the MoveTo methods (Pos.X = x,
Pos.Y = y), before any grid bookkeeping. -/
def ShapeData.moveToPos : ShapeData → ℚ → ℚ → ShapeData
  | .rectangle r, x, y => .rectangle { r with pos := ⟨x, y⟩ }
  | .circle c, x, y => .circle { c with pos := ⟨x, y⟩ }
  | .point r, x, y => .point { r with pos := ⟨x, y⟩ }

/-- First-match association-list lookup (Go map read). -/
def alookup {α β : Type} [DecidableEq α] : List (α × β) → α → Option β
  | [], _ => none
  | (k, v) :: rest, a => if k = a then some v else alookup rest a

/-- First-match association-list write (Go map write): updates the first
entry with the given key, or appends a new entry. -/
def aset {α β : Type} [DecidableEq α] : List (α × β) → α → β → List (α × β)
  | [], a, b => [(a, b)]
  | (k, v) :: rest, a, b => if k = a then (k, b) :: rest else (k, v) :: aset rest a b

/-- Update the value at a key if present, leaving the list unchanged
otherwise (Go mutation through an existing map entry). -/
def aupdate {α β : Type} [DecidableEq α] (f : β → β) : List (α × β) → α → List (α × β)
  | [], _ => []
  | (k, v) :: rest, a => if k = a then (k, f v) :: rest else (k, v) :: aupdate f rest a

/-- NewSpatialHash of collider.go: stores the given cell size with empty
maps.  There is no validation of cellSize. -/
def newSpatialHash (cellSize : ℤ) : SpatialHash :=
  { cellSize := cellSize, hash := [], backref := [] }

/-- The member set of the cell at a coordinate (empty if the cell has
not been created). -/
def cellMembers (s : SpatialHash) (c : CellCoord) : List ℕ :=
  (alookup s.hash c).getD []

/-- The backref list Backref[shape] (empty both when the key is absent
and when it was set to nil by Remove). -/
def backrefList (s : SpatialHash) (id : ℕ) : List CellCoord :=
  (alookup s.backref id).getD []

/-- The step computed by Add for one axis: the whole extent, divided by
the cell size when the extent exceeds it.  Note that the result exceeds
cellSize whenever extent is larger than cellSize squared. -/
def stepFor (cs extent : ℚ) : ℚ :=
  if extent > cs then extent / cs else extent

/-- The cell coordinate hashPos computed by Add for a sample point. -/
def coordOf (cs x y : ℚ) : CellCoord :=
  ⟨⌊x / cs⌋, ⌊y / cs⌋⟩

/-- The sample points of one axis of Add's loop: a, a + step, ... while
the value stays at most b (step assumed positive). -/
def axisVals (a b step : ℚ) : List ℚ :=
  (List.range (⌊(b - a) / step⌋.toNat + 1)).map fun (k : ℕ) => a + (k : ℚ) * step

/-- The cell coordinates visited by the double loop of Add on a bounding
box (x1, y1, x2, y2), in iteration order.  When either step is zero the
loop inserts the first cell and jumps to done; when a bound pair is
reversed the corresponding loop body never runs.  (For cellSize at most
zero, or a zero step combined with a reversed bound pair on the other
axis, the Go loop does not terminate or divides by zero; those inputs
are outside every theorem below, which all assume a positive cell size
and ordered bounds.) -/
def addCoords (cs x1 y1 x2 y2 : ℚ) : List CellCoord :=
  let xStep := stepFor cs (x2 - x1)
  let yStep := stepFor cs (y2 - y1)
  if x1 ≤ x2 ∧ y1 ≤ y2 then
    if xStep = 0 ∨ yStep = 0 then [coordOf cs x1 y1]
    else (axisVals x1 x2 xStep).flatMap fun x => (axisVals y1 y2 yStep).map fun y => coordOf cs x y
  else []

/-- One iteration of Add's loop body: create the cell if absent, add the
shape to its member set, and append the cell to the shape's backref. -/
def SpatialHash.insertShapeAt (s : SpatialHash) (c : CellCoord) (id : ℕ) : SpatialHash :=
  let mem := cellMembers s c
  let mem' := if id ∈ mem then mem else mem ++ [id]
  { s with
    hash := aset s.hash c mem',
    backref := aset s.backref id (backrefList s id ++ [c]) }

/-- The cell coordinates Add visits for a shape: addCoords applied to
the shape's bounds. -/
def addCoordsOf (s : SpatialHash) (sd : ShapeData) : List CellCoord :=
  let (x1, y1, x2, y2) := sd.getBounds
  addCoords (s.cellSize : ℚ) x1 y1 x2 y2

/-- Add of collider.go, restricted to its effect on the hash (the final
shape.SetHash is modelled at the World level). -/
def SpatialHash.addShape (s : SpatialHash) (id : ℕ) (sd : ShapeData) : SpatialHash :=
  (addCoordsOf s sd).foldl (fun st c => st.insertShapeAt c id) s

/-- Remove of collider.go: if the shape has a backref entry, delete the
shape from each listed cell and set the backref entry to nil; the
function returns ErrShapeNotFound on every path. -/
def SpatialHash.removeShape (s : SpatialHash) (id : ℕ) : SpatialHash × GoError :=
  match alookup s.backref id with
  | some cells =>
      ({ s with
         hash := cells.foldl (fun h c => aupdate (fun mem => mem.erase id) h c) s.hash,
         backref := aset s.backref id [] }, .shapeNotFound)
  | none => (s, .shapeNotFound)

/-- Insertion into the shapesMap set, in first-encounter order (a
deterministic stand-in for Go's map iteration order; no claim below
depends on the order). -/
def dedupInsert (acc : List ℕ) (sh : ℕ) : List ℕ :=
  if sh ∈ acc then acc else acc ++ [sh]

/-- GetCollisionCandidates of collider.go, including the slice bug: the
result slice is allocated with make([]Shape, len(shapesMap)) and then
appended to, so it begins with len(shapesMap) nil entries (modelled as
none) followed by the collected shapes. -/
def SpatialHash.getCollisionCandidates (s : SpatialHash) (id : ℕ) : List (Option ℕ) :=
  let collected := (backrefList s id).foldl
    (fun acc c => (cellMembers s c).foldl dedupInsert acc) []
  let remaining := collected.filter (fun sh => sh ≠ id)
  List.replicate remaining.length none ++ remaining.map some

/-- World state: the grid together with the data of every shape handle
and the set of handles whose SpatialHash back-pointer is set (to this
grid).  Shapes are heap objects in Go; the store maps each live handle
to its current field values. -/
structure World where
  grid : SpatialHash
  shapes : List (ℕ × ShapeData)
  hasHash : List ℕ
deriving DecidableEq

/-- A world with a freshly constructed hash and no shapes. -/
def initialWorld (cellSize : ℤ) : World :=
  { grid := newSpatialHash cellSize, shapes := [], hasHash := [] }

/-- s.Add(shape) at the world level: the grid insertion followed by
shape.SetHash(s). -/
def World.addShape (w : World) (id : ℕ) (sd : ShapeData) : World :=
  { grid := w.grid.addShape id sd,
    shapes := aset w.shapes id sd,
    hasHash := if id ∈ w.hasHash then w.hasHash else w.hasHash ++ [id] }

/-- s.Remove(shape) at the world level (the shape's hash pointer is not
cleared by Remove). -/
def World.removeShape (w : World) (id : ℕ) : World × GoError :=
  let (g, e) := w.grid.removeShape id
  ({ w with grid := g }, e)

/-- NewRectangleShape of collider.go: construct the shape and Add it. -/
def World.newRectangleShape (w : World) (id : ℕ) (x y wd h : ℚ) : World :=
  w.addShape id (.rectangle ⟨⟨x, y⟩, wd, h⟩)

/-- NewCircleShape of collider.go: construct the shape and Add it. -/
def World.newCircleShape (w : World) (id : ℕ) (x y r : ℚ) : World :=
  w.addShape id (.circle ⟨⟨x, y⟩, r⟩)

/-- NewPointShape of collider.go: the x and y arguments are ignored and
a RectangleShape at (0, 0) with zero width and height is created and
added (the returned PointShape value wraps that rectangle). -/
def World.newPointShape (w : World) (id : ℕ) (x y : ℚ) : World :=
  w.newRectangleShape id 0 0 0 0

/-- Move of collider.go: mutate the position, then call Remove and Add
on the shape's recorded hash.  When the shape has no recorded hash the
Go code dereferences a nil pointer inside Remove and panics, after the
position was already mutated: this is reported as a false flag.  (The
inner none branch has no Go counterpart: Move always has a receiver.) -/
def World.moveShape (w : World) (id : ℕ) (dx dy : ℚ) : World × Bool :=
  let shapes' := aupdate (fun sd => sd.moveBy dx dy) w.shapes id
  let w' := { w with shapes := shapes' }
  if id ∈ w.hasHash then
    match alookup shapes' id with
    | some sd => ({ w' with grid := ((w'.grid.removeShape id).1.addShape id sd) }, true)
    | none => (w', true)
  else (w', false)

/-- MoveTo of collider.go: as Move, with an absolute position. -/
def World.moveToShape (w : World) (id : ℕ) (x y : ℚ) : World × Bool :=
  let shapes' := aupdate (fun sd => sd.moveToPos x y) w.shapes id
  let w' := { w with shapes := shapes' }
  if id ∈ w.hasHash then
    match alookup shapes' id with
    | some sd => ({ w' with grid := ((w'.grid.removeShape id).1.addShape id sd) }, true)
    | none => (w', true)
  else (w', false)

/-- The grid operations of the public surface, for stating invariants
over operation sequences. -/
inductive GridOp
  | add (id : ℕ) (sd : ShapeData)
  | remove (id : ℕ)
  | move (id : ℕ) (dx dy : ℚ)
  | moveTo (id : ℕ) (x y : ℚ)

/-- Apply one operation to the world. -/
def World.applyOp (w : World) : GridOp → World
  | .add id sd => w.addShape id sd
  | .remove id => (w.removeShape id).1
  | .move id dx dy => (w.moveShape id dx dy).1
  | .moveTo id x y => (w.moveToShape id x y).1

/-- Apply a sequence of operations from left to right. -/
def World.applyOps (w : World) (ops : List GridOp) : World :=
  ops.foldl World.applyOp w

/-- The calling conditions of the spec: Add is never invoked on an
already-registered shape, and Move and MoveTo are only invoked on
shapes that exist and carry a hash pointer. -/
def World.validOp (w : World) : GridOp → Bool
  | .add id _ => (backrefList w.grid id).isEmpty
  | .remove _ => true
  | .move id _ _ => decide (id ∈ w.hasHash) && (alookup w.shapes id).isSome
  | .moveTo id _ _ => decide (id ∈ w.hasHash) && (alookup w.shapes id).isSome

/-- A sequence of operations each of which is valid in the state it is
applied to. -/
def World.validSeq : World → List GridOp → Bool
  | _, [] => true
  | w, op :: ops => w.validOp op && (w.applyOp op).validSeq ops

/-- collisionRectRect of collider.go, which is square-root free and is
therefore modelled exactly over the rationals: the four-disjunct
inclusive overlap test, then the signed near-edge gaps dx and dy, then
zeroing of the axis with the larger absolute push. -/
def collisionRectRect (r1 r2 : RectangleShape) : Vector :=
  let (r1Left, r1Up, r1Right, r1Down) := r1.getBounds
  let (r2Left, r2Up, r2Right, r2Down) := r2.getBounds
  if ¬ (((r1Right ≥ r2Left ∧ r1Right ≤ r2Right) ∨ (r1Left ≥ r2Left ∧ r1Left ≤ r2Right) ∨
         (r1Left ≥ r2Left ∧ r1Right ≤ r2Right) ∨ (r2Left ≥ r1Left ∧ r2Right ≤ r1Right)) ∧
        ((r1Up ≤ r2Down ∧ r1Up ≥ r2Up) ∨ (r1Down ≤ r2Down ∧ r1Down ≥ r2Up) ∨
         (r1Up ≥ r2Up ∧ r1Down ≤ r2Down) ∨ (r2Up ≥ r1Up ∧ r2Down ≤ r1Down))) then
    ⟨0, 0⟩
  else
    let dx := if r1.pos.x < r2.pos.x then r2.pos.x - r2.width / 2 - r1.pos.x - r1.width / 2
              else r2.pos.x + r2.width / 2 - r1.pos.x + r1.width / 2
    let dy := if r1.pos.y < r2.pos.y then r2.pos.y - r2.height / 2 - r1.pos.y - r1.height / 2
              else r2.pos.y + r2.height / 2 - r1.pos.y + r1.height / 2
    if |dx| < |dy| then ⟨dx, 0⟩ else ⟨0, dy⟩

/-- Real-valued vector, for the square-root based circle geometry. -/
structure RVec where
  x : ℝ
  y : ℝ

/-- The rational grid vector viewed as a real vector. -/
def Vector.toRVec (v : Vector) : RVec :=
  ⟨(v.x : ℝ), (v.y : ℝ)⟩

/-- Sub of vector.go. -/
def RVec.sub (v o : RVec) : RVec :=
  ⟨v.x - o.x, v.y - o.y⟩

/-- Length of vector.go. -/
noncomputable def RVec.length (v : RVec) : ℝ :=
  Real.sqrt (v.x * v.x + v.y * v.y)

/-- Normalize of vector.go: divides by the length when it is positive
and returns the vector unchanged otherwise. -/
noncomputable def RVec.normalize (v : RVec) : RVec :=
  if 0 < v.length then ⟨v.x / v.length, v.y / v.length⟩ else ⟨v.x, v.y⟩

/-- Mult of vector.go. -/
def RVec.mult (v : RVec) (s : ℝ) : RVec :=
  ⟨v.x * s, v.y * s⟩

/-- collisionCircCirc of collider.go: dist is c1.Pos.Sub(c2.Pos), the
vector from the second centre to the first. -/
noncomputable def collisionCircCirc (c1 c2 : CircleShape) : RVec :=
  let dist := c1.pos.toRVec.sub c2.pos.toRVec
  let depth := ((c1.radius : ℝ) + (c2.radius : ℝ)) - dist.length
  if depth < 0 then ⟨0, 0⟩
  else (dist.normalize).mult depth

/-- collisionRectCirc of collider.go: bounding-box test against the
circle's bounding square, the nearest-corner quadrant analysis, and the
circle-versus-corner reduction. -/
noncomputable def collisionRectCirc (r1 : RectangleShape) (c1 : CircleShape) : RVec :=
  let rr := collisionRectRect r1 ⟨c1.pos, c1.radius * 2, c1.radius * 2⟩
  if rr.toRVec.length = 0 then rr.toRVec
  else
    let (left, up, right, down) := r1.getBounds
    if r1.pos.x > c1.pos.x then
      if r1.pos.y > c1.pos.y then
        if c1.pos.x > left ∨ c1.pos.y > up then rr.toRVec
        else collisionCircCirc ⟨⟨left, up⟩, 0⟩ c1
      else
        if c1.pos.x > left ∨ c1.pos.y < down then rr.toRVec
        else collisionCircCirc ⟨⟨left, down⟩, 0⟩ c1
    else
      if r1.pos.y > c1.pos.y then
        if c1.pos.x < right ∨ c1.pos.y > up then rr.toRVec
        else collisionCircCirc ⟨⟨right, up⟩, 0⟩ c1
      else
        if c1.pos.x < right ∨ c1.pos.y < down then rr.toRVec
        else collisionCircCirc ⟨⟨right, down⟩, 0⟩ c1

/-- CollisionData of collider.go (Other is the candidate handle). -/
structure CollisionData where
  other : ℕ
  separatingVector : RVec

/-- The append guard closing each candidate iteration: the collision
record is kept only when the computed vector has positive length. -/
noncomputable def pushIfColl (l : List CollisionData) (cid : ℕ) (v : RVec) : List CollisionData :=
  if 0 < v.length then l ++ [⟨cid, v⟩] else l

/-- CheckCollisions of collider.go: candidates from the grid, then a
type switch on the shape and on each candidate.  A nil candidate, a
PointShape, or any other unhandled variant falls into a default branch
that is marked TODO error in the source and silently contributes
nothing; an unhandled queried shape likewise yields the empty list. -/
noncomputable def World.checkCollisions (w : World) (id : ℕ) : List CollisionData :=
  let candidates := w.grid.getCollisionCandidates id
  match alookup w.shapes id with
  | some (.rectangle r1) =>
      candidates.foldl (fun collisions cand =>
        match cand with
        | none => collisions
        | some cid =>
            match alookup w.shapes cid with
            | some (.rectangle r2) => pushIfColl collisions cid (collisionRectRect r1 r2).toRVec
            | some (.circle c2) => pushIfColl collisions cid (collisionRectCirc r1 c2)
            | _ => collisions) []
  | some (.circle c1) =>
      candidates.foldl (fun collisions cand =>
        match cand with
        | none => collisions
        | some cid =>
            match alookup w.shapes cid with
            | some (.rectangle r2) => pushIfColl collisions cid ((collisionRectCirc r2 c1).mult (-1))
            | some (.circle c2) => pushIfColl collisions cid (collisionCircCirc c1 c2)
            | _ => collisions) []
  | _ => []

/-- Add of vector.go, for real vectors. -/
def RVec.add (v o : RVec) : RVec :=
  ⟨v.x + o.x, v.y + o.y⟩

/-- Invariant I2 of the spec: a cell is in a shape's backref list exactly
when the cell's member set contains the shape. -/
def SpatialHash.consistent (s : SpatialHash) : Prop :=
  ∀ id c, c ∈ backrefList s id ↔ id ∈ cellMembers s c

/-- Every cell member set is duplicate free (I3 of the spec; maintained
because Cell.Shapes is a Go map). -/
def SpatialHash.membersNodup (s : SpatialHash) : Prop :=
  ∀ c, (cellMembers s c).Nodup

/-- The grid part of the world satisfies both structural invariants. -/
def World.gridWF (w : World) : Prop :=
  w.grid.consistent ∧ w.grid.membersNodup

/-- The cell with coordinate c, covering the half-open square
[c.x cs, (c.x + 1) cs) times [c.y cs, (c.y + 1) cs), meets the closed
bounding box [x1, x2] times [y1, y2]. -/
def cellOverlapsBox (cs : ℚ) (c : CellCoord) (x1 y1 x2 y2 : ℚ) : Prop :=
  (c.x : ℚ) * cs ≤ x2 ∧ x1 < ((c.x : ℚ) + 1) * cs ∧
  (c.y : ℚ) * cs ≤ y2 ∧ y1 < ((c.y : ℚ) + 1) * cs

instance (cs : ℚ) (c : CellCoord) (x1 y1 x2 y2 : ℚ) :
    Decidable (cellOverlapsBox cs c x1 y1 x2 y2) := by
  unfold cellOverlapsBox
  infer_instance

/-- The two rectangles' bounds overlap inclusively on both axes (the
clean statement of the four-disjunct test in collisionRectRect). -/
def rectsOverlapIncl (r1 r2 : RectangleShape) : Prop :=
  r1.pos.x - r1.width / 2 ≤ r2.pos.x + r2.width / 2 ∧
  r2.pos.x - r2.width / 2 ≤ r1.pos.x + r1.width / 2 ∧
  r1.pos.y - r1.height / 2 ≤ r2.pos.y + r2.height / 2 ∧
  r2.pos.y - r2.height / 2 ≤ r1.pos.y + r1.height / 2

instance (r1 r2 : RectangleShape) : Decidable (rectsOverlapIncl r1 r2) := by
  unfold rectsOverlapIncl
  infer_instance

/-- The signed near-edge gap on the x axis: the gap from r1's right edge
to r2's left edge when r1's centre is the more negative, otherwise the
gap from r1's left edge to r2's right edge.  These are exactly the dx
and dy expressions of collisionRectRect. -/
def pushX (r1 r2 : RectangleShape) : ℚ :=
  if r1.pos.x < r2.pos.x then r2.pos.x - r2.width / 2 - r1.pos.x - r1.width / 2
  else r2.pos.x + r2.width / 2 - r1.pos.x + r1.width / 2

/-- The signed near-edge gap on the y axis. -/
def pushY (r1 r2 : RectangleShape) : ℚ :=
  if r1.pos.y < r2.pos.y then r2.pos.y - r2.height / 2 - r1.pos.y - r1.height / 2
  else r2.pos.y + r2.height / 2 - r1.pos.y + r1.height / 2

/-- Modelled from the spec: the Circle-Circle separating vector as the
spec's formula prescribes it, with d the vector from circle A's centre
to circle B's centre and result normalize(d) * depth.  Stated only for
comparison against collisionCircCirc, whose d points the other way. -/
noncomputable def circCircSpecVector (a b : CircleShape) : RVec :=
  let d := b.pos.toRVec.sub a.pos.toRVec
  let depth := ((a.radius : ℝ) + (b.radius : ℝ)) - d.length
  if depth < 0 then ⟨0, 0⟩ else d.normalize.mult depth

/-! ### Association-list lemmas -/

lemma alookup_aset_self {α β : Type} [DecidableEq α] (l : List (α × β)) (a : α) (b : β) :
    alookup (aset l a b) a = some b := by
  induction l with
  | nil => simp [aset, alookup]
  | cons p rest ih =>
      obtain ⟨k, v⟩ := p
      by_cases h : k = a <;> simp [aset, alookup, h, ih]

lemma alookup_aset_ne {α β : Type} [DecidableEq α] (l : List (α × β)) (a a' : α) (b : β)
    (h : a' ≠ a) : alookup (aset l a b) a' = alookup l a' := by
  induction l with
  | nil => simp [aset, alookup, Ne.symm h]
  | cons p rest ih =>
      obtain ⟨k, v⟩ := p
      by_cases hk : k = a
      · subst hk
        simp [aset, alookup, Ne.symm h]
      · by_cases hk' : k = a'
        · subst hk'
          simp [aset, alookup, hk]
        · simp [aset, alookup, hk, hk', ih]

lemma alookup_aupdate_self {α β : Type} [DecidableEq α] (f : β → β) (l : List (α × β)) (a : α) :
    alookup (aupdate f l a) a = (alookup l a).map f := by
  induction l with
  | nil => simp [aupdate, alookup]
  | cons p rest ih =>
      obtain ⟨k, v⟩ := p
      by_cases h : k = a <;> simp [aupdate, alookup, h, ih]

lemma alookup_aupdate_ne {α β : Type} [DecidableEq α] (f : β → β) (l : List (α × β)) (a a' : α)
    (h : a' ≠ a) : alookup (aupdate f l a) a' = alookup l a' := by
  induction l with
  | nil => simp [aupdate, alookup]
  | cons p rest ih =>
      obtain ⟨k, v⟩ := p
      by_cases hk : k = a
      · subst hk
        simp [aupdate, alookup, Ne.symm h]
      · by_cases hk' : k = a'
        · subst hk'
          simp [aupdate, alookup, hk]
        · simp [aupdate, alookup, hk, hk', ih]

/-! ### Effect of one loop iteration of Add -/

lemma cellMembers_insertShapeAt (s : SpatialHash) (c c' : CellCoord) (id : ℕ) :
    cellMembers (s.insertShapeAt c id) c' =
      if c' = c then
        (if id ∈ cellMembers s c then cellMembers s c else cellMembers s c ++ [id])
      else cellMembers s c' := by
  by_cases h : c' = c
  · subst h
    simp [cellMembers, SpatialHash.insertShapeAt, alookup_aset_self]
  · simp [cellMembers, SpatialHash.insertShapeAt, alookup_aset_ne _ _ _ _ h, h]

lemma backrefList_insertShapeAt (s : SpatialHash) (c : CellCoord) (id id' : ℕ) :
    backrefList (s.insertShapeAt c id) id' =
      if id' = id then backrefList s id ++ [c] else backrefList s id' := by
  by_cases h : id' = id
  · subst h
    simp [backrefList, SpatialHash.insertShapeAt, alookup_aset_self]
  · simp [backrefList, SpatialHash.insertShapeAt, alookup_aset_ne _ _ _ _ h, h]

lemma cellSize_insertShapeAt (s : SpatialHash) (c : CellCoord) (id : ℕ) :
    (s.insertShapeAt c id).cellSize = s.cellSize := rfl

lemma mem_cellMembers_insertShapeAt (s : SpatialHash) (c c' : CellCoord) (id m : ℕ) :
    m ∈ cellMembers (s.insertShapeAt c id) c' ↔
      m ∈ cellMembers s c' ∨ (m = id ∧ c' = c) := by
  rw [cellMembers_insertShapeAt]
  by_cases h : c' = c
  · by_cases hm : id ∈ cellMembers s c <;> simp [h, hm] <;> aesop
  · simp [h]

lemma nodup_cellMembers_insertShapeAt (s : SpatialHash) (c : CellCoord) (id : ℕ)
    (hnd : ∀ c', (cellMembers s c').Nodup) (c' : CellCoord) :
    (cellMembers (s.insertShapeAt c id) c').Nodup := by
  rw [cellMembers_insertShapeAt]
  by_cases h : c' = c
  · by_cases hm : id ∈ cellMembers s c
    · simp [h, hm, hnd c]
    · simp only [h, if_pos rfl, if_neg hm]
      exact List.Nodup.append (hnd c) (List.nodup_singleton id)
        (by simpa using fun hx => hm hx)
  · simp [h, hnd c']

/-! ### Effect of the whole loop of Add -/

lemma backrefList_foldInsert (coords : List CellCoord) (s : SpatialHash) (id id' : ℕ) :
    backrefList (coords.foldl (fun st c => st.insertShapeAt c id) s) id' =
      if id' = id then backrefList s id ++ coords else backrefList s id' := by
  induction coords generalizing s with
  | nil => by_cases h : id' = id <;> simp [h]
  | cons c rest ih =>
      simp only [List.foldl_cons, ih, backrefList_insertShapeAt]
      by_cases h : id' = id <;> simp [h]

lemma mem_cellMembers_foldInsert (coords : List CellCoord) (s : SpatialHash)
    (id m : ℕ) (c : CellCoord) :
    m ∈ cellMembers (coords.foldl (fun st c => st.insertShapeAt c id) s) c ↔
      m ∈ cellMembers s c ∨ (m = id ∧ c ∈ coords) := by
  induction coords generalizing s with
  | nil => simp
  | cons c0 rest ih =>
      simp only [List.foldl_cons, ih, mem_cellMembers_insertShapeAt, List.mem_cons]
      aesop

lemma nodup_cellMembers_foldInsert (coords : List CellCoord) (s : SpatialHash) (id : ℕ)
    (hnd : ∀ c', (cellMembers s c').Nodup) (c : CellCoord) :
    (cellMembers (coords.foldl (fun st c => st.insertShapeAt c id) s) c).Nodup := by
  induction coords generalizing s with
  | nil => exact hnd c
  | cons c0 rest ih =>
      exact ih _ (nodup_cellMembers_insertShapeAt s c0 id hnd)

lemma cellSize_foldInsert (coords : List CellCoord) (s : SpatialHash) (id : ℕ) :
    (coords.foldl (fun st c => st.insertShapeAt c id) s).cellSize = s.cellSize := by
  induction coords generalizing s with
  | nil => rfl
  | cons c0 rest ih => simpa using ih (s.insertShapeAt c0 id)

/-! ### Effect of Remove -/

lemma mem_foldErase (cells : List CellCoord) (h0 : List (CellCoord × List ℕ)) (id : ℕ)
    (hnd : ∀ c, ((alookup h0 c).getD []).Nodup) (c : CellCoord) (m : ℕ) :
    m ∈ (alookup (cells.foldl (fun h c => aupdate (fun mem => mem.erase id) h c) h0) c).getD [] ↔
      m ∈ (alookup h0 c).getD [] ∧ ¬(m = id ∧ c ∈ cells) := by
  induction cells generalizing h0 with
  | nil => simp
  | cons c0 rest ih =>
      have hstep : ∀ c', (alookup (aupdate (fun mem => mem.erase id) h0 c0) c').getD [] =
          if c' = c0 then ((alookup h0 c0).getD []).erase id else (alookup h0 c').getD [] := by
        intro c'
        by_cases hc : c' = c0
        · subst hc
          rw [alookup_aupdate_self]
          cases alookup h0 c' <;> simp
        · rw [alookup_aupdate_ne _ _ _ _ hc, if_neg hc]
      have hnd' : ∀ c', ((alookup (aupdate (fun mem => mem.erase id) h0 c0) c').getD []).Nodup := by
        intro c'
        rw [hstep c']
        by_cases hc : c' = c0
        · simpa [hc] using (hnd c0).erase id
        · simpa [hc] using hnd c'
      rw [List.foldl_cons, ih _ hnd', hstep c]
      by_cases hc : c = c0
      · subst hc
        rw [if_pos rfl]
        constructor
        · rintro ⟨hmem, hrest⟩
          have := (hnd c).mem_erase_iff.mp hmem
          exact ⟨this.2, by rintro ⟨rfl, hmem2⟩; exact this.1 rfl⟩
        · rintro ⟨hmem, hni⟩
          have hmne : m ≠ id := by rintro rfl; exact hni ⟨rfl, List.mem_cons_self _ _⟩
          exact ⟨(hnd c).mem_erase_iff.mpr ⟨hmne, hmem⟩,
            by rintro ⟨rfl, hr⟩; exact hmne rfl⟩
      · rw [if_neg hc]
        simp [List.mem_cons, hc]

lemma backrefList_removeShape (s : SpatialHash) (id id' : ℕ) :
    backrefList (s.removeShape id).1 id' =
      if id' = id then [] else backrefList s id' := by
  unfold SpatialHash.removeShape
  cases hb : alookup s.backref id with
  | none =>
      by_cases h : id' = id
      · simp [backrefList, h, hb]
      · simp [backrefList, h]
  | some cells =>
      by_cases h : id' = id
      · simp [backrefList, h, alookup_aset_self]
      · simp [backrefList, h, alookup_aset_ne _ _ _ _ h]

lemma mem_cellMembers_removeShape (s : SpatialHash) (id m : ℕ) (c : CellCoord)
    (hnd : ∀ c', (cellMembers s c').Nodup) :
    m ∈ cellMembers (s.removeShape id).1 c ↔
      m ∈ cellMembers s c ∧ ¬(m = id ∧ c ∈ backrefList s id) := by
  unfold SpatialHash.removeShape
  cases hb : alookup s.backref id with
  | none => simp [backrefList, hb, cellMembers]
  | some cells =>
      have := mem_foldErase cells s.hash id (fun c' => hnd c') c m
      simpa [backrefList, hb, cellMembers] using this

lemma nodup_foldErase (cells : List CellCoord) (h0 : List (CellCoord × List ℕ)) (id : ℕ)
    (hnd : ∀ c, ((alookup h0 c).getD []).Nodup) (c : CellCoord) :
    ((alookup (cells.foldl (fun h c => aupdate (fun mem => mem.erase id) h c) h0) c).getD []).Nodup := by
  induction cells generalizing h0 with
  | nil => exact hnd c
  | cons c0 rest ih =>
      refine ih _ ?_
      intro c'
      by_cases hc : c' = c0
      · subst hc
        rw [alookup_aupdate_self]
        cases h : alookup h0 c' with
        | none => simp
        | some l => simpa [h] using ((by simpa [h] using hnd c' : l.Nodup)).erase id
      · rw [alookup_aupdate_ne _ _ _ _ hc]
        exact hnd c'

lemma nodup_cellMembers_removeShape (s : SpatialHash) (id : ℕ)
    (hnd : ∀ c', (cellMembers s c').Nodup) (c : CellCoord) :
    (cellMembers (s.removeShape id).1 c).Nodup := by
  unfold SpatialHash.removeShape
  cases hb : alookup s.backref id with
  | none => simpa [cellMembers] using hnd c
  | some cells =>
      simpa [cellMembers] using nodup_foldErase cells s.hash id (fun c' => hnd c') c

lemma cellSize_removeShape (s : SpatialHash) (id : ℕ) :
    (s.removeShape id).1.cellSize = s.cellSize := by
  unfold SpatialHash.removeShape
  cases alookup s.backref id <;> rfl

lemma error_removeShape (s : SpatialHash) (id : ℕ) :
    (s.removeShape id).2 = .shapeNotFound := by
  unfold SpatialHash.removeShape
  cases alookup s.backref id <;> rfl

/-! ### Bidirectional consistency of backref and cell membership -/

lemma consistent_newSpatialHash (cs : ℤ) : (newSpatialHash cs).consistent := by
  intro id c
  simp [backrefList, cellMembers, newSpatialHash, alookup]

lemma membersNodup_newSpatialHash (cs : ℤ) : (newSpatialHash cs).membersNodup := by
  intro c
  simp [cellMembers, newSpatialHash, alookup]

lemma consistent_foldInsert (coords : List CellCoord) (s : SpatialHash) (id : ℕ)
    (hcons : s.consistent) (hempty : backrefList s id = []) :
    (coords.foldl (fun st c => st.insertShapeAt c id) s).consistent := by
  intro id' c
  rw [backrefList_foldInsert, mem_cellMembers_foldInsert]
  by_cases h : id' = id
  · subst h
    have hno : ¬ id' ∈ cellMembers s c := by
      rw [← hcons id' c, hempty]
      exact List.not_mem_nil c
    simp [hempty, hno]
  · simp [h, hcons id' c]

lemma consistent_addShape (s : SpatialHash) (id : ℕ) (sd : ShapeData)
    (hcons : s.consistent) (hempty : backrefList s id = []) :
    (s.addShape id sd).consistent := by
  unfold SpatialHash.addShape
  exact consistent_foldInsert _ s id hcons hempty

lemma membersNodup_addShape (s : SpatialHash) (id : ℕ) (sd : ShapeData)
    (hnd : s.membersNodup) : (s.addShape id sd).membersNodup := by
  unfold SpatialHash.addShape
  exact nodup_cellMembers_foldInsert _ s id hnd

lemma backrefList_addShape (s : SpatialHash) (id id' : ℕ) (sd : ShapeData) :
    backrefList (s.addShape id sd) id' =
      if id' = id then backrefList s id ++ addCoordsOf s sd else backrefList s id' := by
  unfold SpatialHash.addShape
  rw [backrefList_foldInsert]

lemma mem_cellMembers_addShape (s : SpatialHash) (id m : ℕ) (sd : ShapeData) (c : CellCoord) :
    m ∈ cellMembers (s.addShape id sd) c ↔
      m ∈ cellMembers s c ∨ (m = id ∧ c ∈ addCoordsOf s sd) := by
  unfold SpatialHash.addShape
  rw [mem_cellMembers_foldInsert]

lemma cellSize_addShape (s : SpatialHash) (id : ℕ) (sd : ShapeData) :
    (s.addShape id sd).cellSize = s.cellSize := by
  unfold SpatialHash.addShape
  rw [cellSize_foldInsert]

lemma addCoordsOf_addShape (s : SpatialHash) (id : ℕ) (sd sd2 : ShapeData) :
    addCoordsOf (s.addShape id sd) sd2 = addCoordsOf s sd2 := by
  unfold addCoordsOf
  rw [cellSize_addShape]

lemma consistent_removeShape (s : SpatialHash) (id : ℕ)
    (hcons : s.consistent) (hnd : s.membersNodup) :
    (s.removeShape id).1.consistent := by
  intro id' c
  rw [backrefList_removeShape, mem_cellMembers_removeShape _ _ _ _ hnd]
  by_cases h : id' = id
  · subst h
    simp [hcons id' c]
  · simp [h, hcons id' c]

lemma membersNodup_removeShape (s : SpatialHash) (id : ℕ)
    (hnd : s.membersNodup) : (s.removeShape id).1.membersNodup :=
  nodup_cellMembers_removeShape s id hnd

lemma removeShape_clears (s : SpatialHash) (id : ℕ)
    (hcons : s.consistent) (hnd : s.membersNodup) :
    backrefList (s.removeShape id).1 id = [] ∧
      ∀ c, id ∉ cellMembers (s.removeShape id).1 c := by
  constructor
  · rw [backrefList_removeShape, if_pos rfl]
  · intro c hc
    rw [mem_cellMembers_removeShape _ _ _ _ hnd] at hc
    rcases hc with ⟨hmem, hni⟩
    exact hni ⟨rfl, (hcons id c).mpr hmem⟩

lemma gridWF_initialWorld (cs : ℤ) : (initialWorld cs).gridWF :=
  ⟨consistent_newSpatialHash cs, membersNodup_newSpatialHash cs⟩

lemma gridWF_applyOp (w : World) (op : GridOp)
    (hwf : w.gridWF) (hv : w.validOp op = true) : (w.applyOp op).gridWF := by
  obtain ⟨hcons, hnd⟩ := hwf
  cases op with
  | add id sd =>
      have hempty : backrefList w.grid id = [] := by
        simpa [World.validOp, List.isEmpty_iff] using hv
      exact ⟨consistent_addShape _ _ _ hcons hempty, membersNodup_addShape _ _ _ hnd⟩
  | remove id =>
      exact ⟨consistent_removeShape _ _ hcons hnd, membersNodup_removeShape _ _ hnd⟩
  | move id dx dy =>
      simp only [World.applyOp, World.moveShape]
      have hmem : id ∈ w.hasHash := by
        simp [World.validOp] at hv
        exact hv.1
      rw [if_pos hmem]
      have hclear := removeShape_clears w.grid id hcons hnd
      have hcons' := consistent_removeShape w.grid id hcons hnd
      have hnd' := membersNodup_removeShape w.grid id hnd
      cases alookup (aupdate (fun sd => sd.moveBy dx dy) w.shapes id) id with
      | none => exact ⟨hcons, hnd⟩
      | some sd =>
          exact ⟨consistent_addShape _ _ _ hcons' hclear.1, membersNodup_addShape _ _ _ hnd'⟩
  | moveTo id x y =>
      simp only [World.applyOp, World.moveToShape]
      have hmem : id ∈ w.hasHash := by
        simp [World.validOp] at hv
        exact hv.1
      rw [if_pos hmem]
      have hclear := removeShape_clears w.grid id hcons hnd
      have hcons' := consistent_removeShape w.grid id hcons hnd
      have hnd' := membersNodup_removeShape w.grid id hnd
      cases alookup (aupdate (fun sd => sd.moveToPos x y) w.shapes id) id with
      | none => exact ⟨hcons, hnd⟩
      | some sd =>
          exact ⟨consistent_addShape _ _ _ hcons' hclear.1, membersNodup_addShape _ _ _ hnd'⟩

lemma gridWF_applyOps (ops : List GridOp) (w : World)
    (hwf : w.gridWF) (hv : w.validSeq ops = true) : (w.applyOps ops).gridWF := by
  induction ops generalizing w with
  | nil => exact hwf
  | cons op rest ih =>
      rw [World.validSeq, Bool.and_eq_true] at hv
      exact ih _ (gridWF_applyOp w op hwf hv.1) hv.2

/-! ### Membership in GetCollisionCandidates -/

lemma mem_foldl_dedupInsert (l acc : List ℕ) (m : ℕ) :
    m ∈ l.foldl dedupInsert acc ↔ m ∈ acc ∨ m ∈ l := by
  induction l generalizing acc with
  | nil => simp
  | cons a rest ih =>
      rw [List.foldl_cons, ih]
      unfold dedupInsert
      by_cases h : a ∈ acc
      · rw [if_pos h]
        constructor
        · rintro (hx | hx)
          · exact Or.inl hx
          · exact Or.inr (List.mem_cons_of_mem _ hx)
        · rintro (hx | hx)
          · exact Or.inl hx
          · rcases List.mem_cons.mp hx with rfl | hx
            · exact Or.inl h
            · exact Or.inr hx
      · rw [if_neg h]
        simp only [List.mem_append, List.mem_singleton, List.mem_cons]
        tauto

lemma mem_collect (cells : List CellCoord) (s : SpatialHash) (acc : List ℕ) (m : ℕ) :
    m ∈ cells.foldl (fun acc c => (cellMembers s c).foldl dedupInsert acc) acc ↔
      m ∈ acc ∨ ∃ c ∈ cells, m ∈ cellMembers s c := by
  induction cells generalizing acc with
  | nil => simp
  | cons c0 rest ih =>
      rw [List.foldl_cons, ih, mem_foldl_dedupInsert]
      constructor
      · rintro ((hx | hx) | ⟨c, hc, hx⟩)
        · exact Or.inl hx
        · exact Or.inr ⟨c0, List.mem_cons_self _ _, hx⟩
        · exact Or.inr ⟨c, List.mem_cons_of_mem _ hc, hx⟩
      · rintro (hx | ⟨c, hc, hx⟩)
        · exact Or.inl (Or.inl hx)
        · rcases List.mem_cons.mp hc with rfl | hc
          · exact Or.inl (Or.inr hx)
          · exact Or.inr ⟨c, hc, hx⟩

lemma some_mem_getCollisionCandidates (s : SpatialHash) (id m : ℕ) :
    some m ∈ s.getCollisionCandidates id ↔
      m ≠ id ∧ ∃ c ∈ backrefList s id, m ∈ cellMembers s c := by
  unfold SpatialHash.getCollisionCandidates
  simp only [List.mem_append, List.mem_replicate, List.mem_map, List.mem_filter,
    mem_collect, Option.some.injEq]
  constructor
  · rintro (⟨hn, habs⟩ | ⟨a, ⟨ha, hne⟩, rfl⟩)
    · cases habs
    · refine ⟨by simpa using hne, ?_⟩
      rcases ha with ha | ha
      · cases ha
      · exact ha
  · rintro ⟨hne, hex⟩
    exact Or.inr ⟨m, ⟨Or.inr hex, by simpa using hne⟩, rfl⟩

/-! ### The set of cells visited by Add -/

lemma stepFor_pos (cs e : ℚ) (hcs : 0 < cs) (he : 0 < e) : 0 < stepFor cs e := by
  unfold stepFor
  split
  · exact div_pos he hcs
  · exact he

lemma stepFor_le (m : ℤ) (e : ℚ) (hm : 0 < m) (he : 0 < e) (hbound : e ≤ (m:ℚ) * m) :
    stepFor (m:ℚ) e ≤ (m:ℚ) := by
  have hmq : (0:ℚ) < (m:ℚ) := by exact_mod_cast hm
  unfold stepFor
  split
  · rw [div_le_iff hmq]
    exact hbound
  · next h => exact le_of_not_lt h

lemma stepFor_count (m : ℤ) (e : ℚ) (hm : 0 < m) (he : 0 < e) :
    (⌊e / stepFor (m:ℚ) e⌋.toNat : ℚ) * stepFor (m:ℚ) e = e := by
  have hmq : (0:ℚ) < (m:ℚ) := by exact_mod_cast hm
  unfold stepFor
  split
  · next h =>
      have hdiv : e / (e / (m:ℚ)) = (m:ℚ) := by
        field_simp
      rw [hdiv, Int.floor_intCast]
      have htn : ((m.toNat : ℕ) : ℚ) = (m:ℚ) := by
        have := Int.toNat_of_nonneg (le_of_lt hm)
        exact_mod_cast congrArg (fun z : ℤ => (z : ℚ)) this
      rw [htn]
      field_simp
  · have hone : e / e = 1 := div_self (ne_of_gt he)
    rw [hone]
    norm_num

lemma floorSample_mono (a s cs : ℚ) (hs : 0 ≤ s) (hcs : 0 < cs) (j k : ℕ) (h : j ≤ k) :
    ⌊(a + (j:ℚ) * s) / cs⌋ ≤ ⌊(a + (k:ℚ) * s) / cs⌋ := by
  apply Int.floor_le_floor
  have hjk : (j:ℚ) ≤ (k:ℚ) := by exact_mod_cast h
  have : a + (j:ℚ) * s ≤ a + (k:ℚ) * s := by nlinarith
  exact div_le_div_of_nonneg_right this (le_of_lt hcs)

lemma floorSample_step (a s cs : ℚ) (hscs : s ≤ cs) (hcs : 0 < cs) (k : ℕ) :
    ⌊(a + ((k:ℚ) + 1) * s) / cs⌋ ≤ ⌊(a + (k:ℚ) * s) / cs⌋ + 1 := by
  have h1 : (a + ((k:ℚ) + 1) * s) / cs ≤ (a + (k:ℚ) * s) / cs + 1 := by
    have hd : (a + ((k:ℚ) + 1) * s) / cs = (a + (k:ℚ) * s) / cs + s / cs := by
      ring
    rw [hd]
    have : s / cs ≤ 1 := (div_le_one hcs).mpr hscs
    linarith
  calc ⌊(a + ((k:ℚ) + 1) * s) / cs⌋ ≤ ⌊(a + (k:ℚ) * s) / cs + 1⌋ := Int.floor_le_floor h1
    _ = ⌊(a + (k:ℚ) * s) / cs⌋ + 1 := Int.floor_add_one _

lemma discreteIVT (f : ℕ → ℤ) (K : ℕ) (hmono : ∀ k, k < K → f k ≤ f (k + 1))
    (hstep : ∀ k, k < K → f (k + 1) ≤ f k + 1) (z : ℤ) (h0 : f 0 ≤ z) (hK : z ≤ f K) :
    ∃ k, k ≤ K ∧ f k = z := by
  induction K with
  | zero => exact ⟨0, le_refl 0, le_antisymm h0 hK⟩
  | succ K ih =>
      by_cases hz : z ≤ f K
      · obtain ⟨k, hk, hfk⟩ := ih (fun k hk => hmono k (Nat.lt_succ_of_lt hk))
          (fun k hk => hstep k (Nat.lt_succ_of_lt hk)) hz
        exact ⟨k, Nat.le_succ_of_le hk, hfk⟩
      · push_neg at hz
        have h1 : f (K + 1) ≤ f K + 1 := hstep K (Nat.lt_succ_self K)
        exact ⟨K + 1, le_refl _, by omega⟩

lemma axis_floor_image (m : ℤ) (a b : ℚ) (hm : 0 < m) (hab : 0 < b - a)
    (hbound : b - a ≤ (m:ℚ) * m) (z : ℤ) :
    (∃ x ∈ axisVals a b (stepFor (m:ℚ) (b - a)), ⌊x / (m:ℚ)⌋ = z) ↔
      ⌊a / (m:ℚ)⌋ ≤ z ∧ z ≤ ⌊b / (m:ℚ)⌋ := by
  have hmq : (0:ℚ) < (m:ℚ) := by exact_mod_cast hm
  obtain ⟨s, hs_def⟩ : ∃ s, stepFor (m:ℚ) (b - a) = s := ⟨_, rfl⟩
  have hs : 0 < s := hs_def ▸ stepFor_pos _ _ hmq hab
  have hscs : s ≤ (m:ℚ) := hs_def ▸ stepFor_le m _ hm hab hbound
  obtain ⟨K, hK_def⟩ : ∃ K, ⌊(b - a) / s⌋.toNat = K := ⟨_, rfl⟩
  have hlast : a + (K:ℚ) * s = b := by
    have h := stepFor_count m (b - a) hm hab
    rw [hs_def] at h
    rw [← hK_def]
    linarith
  have hmem : ∀ x, x ∈ axisVals a b s ↔ ∃ k, k ≤ K ∧ x = a + (k:ℚ) * s := by
    intro x
    unfold axisVals
    rw [hK_def]
    simp only [List.mem_map, List.mem_range, Nat.lt_succ_iff]
    constructor
    · rintro ⟨k, hk, rfl⟩
      exact ⟨k, hk, rfl⟩
    · rintro ⟨k, hk, rfl⟩
      exact ⟨k, hk, rfl⟩
  have hfK : ⌊(a + (K:ℚ) * s) / (m:ℚ)⌋ = ⌊b / (m:ℚ)⌋ := by
    rw [hlast]
  rw [hs_def]
  constructor
  · rintro ⟨x, hx, rfl⟩
    obtain ⟨k, hk, rfl⟩ := (hmem _).mp hx
    constructor
    · calc ⌊a / (m:ℚ)⌋ = ⌊(a + ((0:ℕ):ℚ) * s) / (m:ℚ)⌋ := by norm_num
        _ ≤ ⌊(a + (k:ℚ) * s) / (m:ℚ)⌋ := floorSample_mono a s _ (le_of_lt hs) hmq 0 k (Nat.zero_le k)
    · calc ⌊(a + (k:ℚ) * s) / (m:ℚ)⌋ ≤ ⌊(a + (K:ℚ) * s) / (m:ℚ)⌋ :=
          floorSample_mono a s _ (le_of_lt hs) hmq k K hk
        _ = ⌊b / (m:ℚ)⌋ := hfK
  · rintro ⟨h0, hK2⟩
    obtain ⟨k, hk, hfk⟩ := discreteIVT (fun k => ⌊(a + (k:ℚ) * s) / (m:ℚ)⌋) K
      (fun k _ => floorSample_mono a s _ (le_of_lt hs) hmq k (k + 1) (Nat.le_succ k))
      (fun k _ => by
        have := floorSample_step a s (m:ℚ) hscs hmq k
        simpa [Nat.cast_add, Nat.cast_one] using this)
      z (by simpa using h0) (by simpa [hlast] using hK2)
    exact ⟨a + (k:ℚ) * s, (hmem _).mpr ⟨k, hk, rfl⟩, hfk⟩

lemma cell_axis_iff (m : ℤ) (a b : ℚ) (hm : 0 < m) (z : ℤ) :
    ((z:ℚ) * (m:ℚ) ≤ b ∧ a < ((z:ℚ) + 1) * (m:ℚ)) ↔
      (⌊a / (m:ℚ)⌋ ≤ z ∧ z ≤ ⌊b / (m:ℚ)⌋) := by
  have hmq : (0:ℚ) < (m:ℚ) := by exact_mod_cast hm
  have h1 : (z:ℚ) * (m:ℚ) ≤ b ↔ z ≤ ⌊b / (m:ℚ)⌋ := by
    rw [Int.le_floor, le_div_iff hmq]
  have h2 : a < ((z:ℚ) + 1) * (m:ℚ) ↔ ⌊a / (m:ℚ)⌋ ≤ z := by
    rw [← Int.lt_add_one_iff, Int.floor_lt, div_lt_iff hmq]
    push_cast
    rfl
  rw [h1, h2]
  tauto

lemma mem_addCoords_iff (m : ℤ) (x1 y1 x2 y2 : ℚ) (hm : 0 < m)
    (hx : 0 < x2 - x1) (hy : 0 < y2 - y1)
    (hxb : x2 - x1 ≤ (m:ℚ) * m) (hyb : y2 - y1 ≤ (m:ℚ) * m) (c : CellCoord) :
    c ∈ addCoords (m:ℚ) x1 y1 x2 y2 ↔ cellOverlapsBox (m:ℚ) c x1 y1 x2 y2 := by
  have hmq : (0:ℚ) < (m:ℚ) := by exact_mod_cast hm
  have hxs : 0 < stepFor (m:ℚ) (x2 - x1) := stepFor_pos _ _ hmq hx
  have hys : 0 < stepFor (m:ℚ) (y2 - y1) := stepFor_pos _ _ hmq hy
  unfold addCoords
  rw [if_pos ⟨by linarith, by linarith⟩, if_neg (by
    push_neg
    exact ⟨ne_of_gt hxs, ne_of_gt hys⟩)]
  simp only [List.mem_flatMap, List.mem_map]
  have hsplit : (∃ x ∈ axisVals x1 x2 (stepFor (m:ℚ) (x2 - x1)),
      ∃ y ∈ axisVals y1 y2 (stepFor (m:ℚ) (y2 - y1)), coordOf (m:ℚ) x y = c) ↔
      ((∃ x ∈ axisVals x1 x2 (stepFor (m:ℚ) (x2 - x1)), ⌊x / (m:ℚ)⌋ = c.x) ∧
       (∃ y ∈ axisVals y1 y2 (stepFor (m:ℚ) (y2 - y1)), ⌊y / (m:ℚ)⌋ = c.y)) := by
    constructor
    · rintro ⟨x, hx2, y, hy2, hc⟩
      subst hc
      exact ⟨⟨x, hx2, rfl⟩, ⟨y, hy2, rfl⟩⟩
    · rintro ⟨⟨x, hx2, hfx⟩, ⟨y, hy2, hfy⟩⟩
      refine ⟨x, hx2, y, hy2, ?_⟩
      show (⟨⌊x / (m:ℚ)⌋, ⌊y / (m:ℚ)⌋⟩ : CellCoord) = c
      rw [hfx, hfy]
  have goal1 := axis_floor_image m x1 x2 hm hx hxb c.x
  have goal2 := axis_floor_image m y1 y2 hm hy hyb c.y
  have goal3 := cell_axis_iff m x1 x2 hm c.x
  have goal4 := cell_axis_iff m y1 y2 hm c.y
  rw [hsplit]
  unfold cellOverlapsBox
  constructor
  · rintro ⟨h1, h2⟩
    have hx3 := goal3.mpr (goal1.mp h1)
    have hy3 := goal4.mpr (goal2.mp h2)
    exact ⟨hx3.1, hx3.2, hy3.1, hy3.2⟩
  · rintro ⟨ha, hb, hc2, hd⟩
    exact ⟨goal1.mpr (goal3.mp ⟨ha, hb⟩), goal2.mpr (goal4.mp ⟨hc2, hd⟩)⟩

lemma addCoords_degenerate (cs x1 y1 x2 y2 : ℚ)
    (hx : x1 ≤ x2) (hy : y1 ≤ y2) (hz : x1 = x2 ∨ y1 = y2) :
    addCoords cs x1 y1 x2 y2 = [coordOf cs x1 y1] := by
  unfold addCoords
  rw [if_pos ⟨hx, hy⟩, if_pos]
  rcases hz with h | h
  · refine Or.inl ?_
    rw [← h, sub_self]
    simp [stepFor]
  · refine Or.inr ?_
    rw [← h, sub_self]
    simp [stepFor]

lemma candidates_after_two_adds (s : SpatialHash) (p q : ℕ) (pd qd : ShapeData)
    (c : CellCoord) (hpq : p ≠ q) (hcp : c ∈ addCoordsOf s pd) (hcq : c ∈ addCoordsOf s qd) :
    some p ∈ ((s.addShape p pd).addShape q qd).getCollisionCandidates q := by
  rw [some_mem_getCollisionCandidates]
  refine ⟨hpq, c, ?_, ?_⟩
  · rw [backrefList_addShape, if_pos rfl, addCoordsOf_addShape]
    exact List.mem_append_right _ hcq
  · rw [mem_cellMembers_addShape]
    refine Or.inl ?_
    rw [mem_cellMembers_addShape]
    exact Or.inr ⟨rfl, hcp⟩

/-! ### The narrow-phase overlap condition, rephrased -/

lemma interval_code_x (a1 b1 a2 b2 : ℚ) (hw1 : a1 ≤ b1) (hw2 : a2 ≤ b2) :
    ((b1 ≥ a2 ∧ b1 ≤ b2) ∨ (a1 ≥ a2 ∧ a1 ≤ b2) ∨ (a1 ≥ a2 ∧ b1 ≤ b2) ∨ (a2 ≥ a1 ∧ b2 ≤ b1)) ↔
      (a1 ≤ b2 ∧ a2 ≤ b1) := by
  constructor
  · rintro (⟨h, h2⟩ | ⟨h, h2⟩ | ⟨h, h2⟩ | ⟨h, h2⟩) <;> exact ⟨by linarith, by linarith⟩
  · rintro ⟨h, h2⟩
    rcases le_or_lt a2 a1 with hc | hc
    · exact Or.inr (Or.inl ⟨hc, h⟩)
    · rcases le_or_lt b1 b2 with hd | hd
      · exact Or.inl ⟨h2, hd⟩
      · exact Or.inr (Or.inr (Or.inr ⟨le_of_lt hc, le_of_lt hd⟩))

lemma interval_code_y (a1 b1 a2 b2 : ℚ) (hw1 : a1 ≤ b1) (hw2 : a2 ≤ b2) :
    ((a1 ≤ b2 ∧ a1 ≥ a2) ∨ (b1 ≤ b2 ∧ b1 ≥ a2) ∨ (a1 ≥ a2 ∧ b1 ≤ b2) ∨ (a2 ≥ a1 ∧ b2 ≤ b1)) ↔
      (a1 ≤ b2 ∧ a2 ≤ b1) := by
  constructor
  · rintro (⟨h, h2⟩ | ⟨h, h2⟩ | ⟨h, h2⟩ | ⟨h, h2⟩) <;> exact ⟨by linarith, by linarith⟩
  · rintro ⟨h, h2⟩
    rcases le_or_lt a2 a1 with hc | hc
    · exact Or.inl ⟨h, hc⟩
    · rcases le_or_lt b1 b2 with hd | hd
      · exact Or.inr (Or.inl ⟨hd, h2⟩)
      · exact Or.inr (Or.inr (Or.inr ⟨le_of_lt hc, le_of_lt hd⟩))

/-! ### Circle geometry lemmas -/

lemma length_smul (v : RVec) (c : ℝ) (hc : 0 ≤ c) :
    RVec.length ⟨v.x * c, v.y * c⟩ = c * v.length := by
  unfold RVec.length
  have h : v.x * c * (v.x * c) + v.y * c * (v.y * c) = c * c * (v.x * v.x + v.y * v.y) := by
    ring
  rw [h, Real.sqrt_mul (mul_self_nonneg c), Real.sqrt_mul_self hc]

lemma add_sub_swap (x y z : RVec) : (x.add z).sub y = (x.sub y).add z := by
  unfold RVec.add RVec.sub
  rw [RVec.mk.injEq]
  exact ⟨by ring, by ring⟩

lemma circCirc_separation (d : RVec) (ra rb : ℝ)
    (hd : 0 < d.length) (hdepth : 0 ≤ ra + rb - d.length) :
    (d.add (d.normalize.mult (ra + rb - d.length))).length = ra + rb := by
  obtain ⟨L, hLdef⟩ : ∃ L, d.length = L := ⟨_, rfl⟩
  have hL : 0 < L := hLdef ▸ hd
  have hrr : L ≤ ra + rb := by
    rw [hLdef] at hdepth
    linarith
  have hnorm : d.normalize = ⟨d.x / L, d.y / L⟩ := by
    unfold RVec.normalize
    rw [hLdef, if_pos hL]
  have hk : (0:ℝ) ≤ (ra + rb) / L := div_nonneg (by linarith) (le_of_lt hL)
  have hstep : d.add ((RVec.mk (d.x / L) (d.y / L)).mult (ra + rb - d.length)) =
      ⟨d.x * ((ra + rb) / L), d.y * ((ra + rb) / L)⟩ := by
    unfold RVec.add RVec.mult
    rw [hLdef, RVec.mk.injEq]
    constructor
    · field_simp
      ring
    · field_simp
      ring
  rw [hnorm, hstep, length_smul d _ hk, hLdef]
  field_simp

lemma sqrt_sixtyfour : Real.sqrt 64 = 8 := by
  rw [show (64:ℝ) = 8 ^ 2 by norm_num]
  exact Real.sqrt_sq (by norm_num)

lemma circ_code_example : collisionCircCirc ⟨⟨0, 0⟩, 5⟩ ⟨⟨8, 0⟩, 5⟩ = ⟨-2, 0⟩ := by
  have hd : (Vector.toRVec ⟨0, 0⟩).sub (Vector.toRVec ⟨8, 0⟩) = ⟨-8, 0⟩ := by
    simp only [Vector.toRVec, RVec.sub]
    norm_num
  have hlen : RVec.length ⟨-8, 0⟩ = 8 := by
    simp only [RVec.length]
    norm_num [sqrt_sixtyfour]
  have hnorm : RVec.normalize ⟨-8, 0⟩ = ⟨-1, 0⟩ := by
    simp only [RVec.normalize, hlen]
    rw [if_pos (by norm_num)]
    norm_num
  simp only [collisionCircCirc, hd, hlen, hnorm]
  rw [if_neg (by norm_num)]
  simp only [RVec.mult]
  norm_num

lemma circ_spec_example : circCircSpecVector ⟨⟨0, 0⟩, 5⟩ ⟨⟨8, 0⟩, 5⟩ = ⟨2, 0⟩ := by
  have hd : (Vector.toRVec ⟨8, 0⟩).sub (Vector.toRVec ⟨0, 0⟩) = ⟨8, 0⟩ := by
    simp only [Vector.toRVec, RVec.sub]
    norm_num
  have hlen : RVec.length ⟨8, 0⟩ = 8 := by
    simp only [RVec.length]
    norm_num [sqrt_sixtyfour]
  have hnorm : RVec.normalize ⟨8, 0⟩ = ⟨1, 0⟩ := by
    simp only [RVec.normalize, hlen]
    rw [if_pos (by norm_num)]
    norm_num
  simp only [circCircSpecVector, hd, hlen, hnorm]
  rw [if_neg (by norm_num)]
  simp only [RVec.mult]
  norm_num

lemma collisionRectRect_eq (r1 r2 : RectangleShape) (h1 : 0 ≤ r1.width) (h2 : 0 ≤ r1.height)
    (h3 : 0 ≤ r2.width) (h4 : 0 ≤ r2.height) :
    collisionRectRect r1 r2 =
      if rectsOverlapIncl r1 r2 then
        (if |pushX r1 r2| < |pushY r1 r2| then ⟨pushX r1 r2, 0⟩ else ⟨0, pushY r1 r2⟩)
      else ⟨0, 0⟩ := by
  have hx := interval_code_x (r1.pos.x - r1.width / 2) (r1.pos.x + r1.width / 2)
    (r2.pos.x - r2.width / 2) (r2.pos.x + r2.width / 2) (by linarith) (by linarith)
  have hy := interval_code_y (r1.pos.y - r1.height / 2) (r1.pos.y + r1.height / 2)
    (r2.pos.y - r2.height / 2) (r2.pos.y + r2.height / 2) (by linarith) (by linarith)
  simp only [collisionRectRect, RectangleShape.getBounds, pushX, pushY, ge_iff_le]
  by_cases hov : rectsOverlapIncl r1 r2
  · rw [if_pos hov]
    obtain ⟨ho1, ho2, ho3, ho4⟩ := hov
    rw [if_neg]
    push_neg
    constructor
    · exact (by simpa [ge_iff_le] using hx.mpr ⟨ho1, ho2⟩)
    · exact (by simpa [ge_iff_le] using hy.mpr ⟨ho3, ho4⟩)
  · rw [if_neg hov, if_pos]
    intro hand
    exact hov (by
      unfold rectsOverlapIncl
      have hxx := hx.mp (by simpa [ge_iff_le] using hand.1)
      have hyy := hy.mp (by simpa [ge_iff_le] using hand.2)
      exact ⟨hxx.1, hxx.2, hyy.1, hyy.2⟩)

lemma removeShape_grid (w : World) (id : ℕ) :
    (w.removeShape id).1.grid = (w.grid.removeShape id).1 := rfl

lemma addCoords_zero (cs : ℚ) : addCoords cs 0 0 0 0 = [coordOf cs 0 0] :=
  addCoords_degenerate cs 0 0 0 0 le_rfl le_rfl (Or.inl rfl)

lemma coordOf_zero (cs : ℚ) : coordOf cs 0 0 = ⟨0, 0⟩ := by
  unfold coordOf
  norm_num

lemma addCoordsOf_zeroRect (s : SpatialHash) :
    addCoordsOf s (.rectangle ⟨⟨0, 0⟩, 0, 0⟩) = [⟨0, 0⟩] := by
  simp only [addCoordsOf, ShapeData.getBounds, RectangleShape.getBounds]
  norm_num
  rw [addCoords_zero, coordOf_zero]

/-! ### The claims -/

/-- C1 (counterexample): with cellSize 2 and a bounding box of x extent
8 (which exceeds cellSize squared), the x step is 8 / 2 = 4 > cellSize,
and the cell (1, 0), although overlapped by the box, is visited by
neither the coordinate enumeration nor the actual Add: the claim that
Add registers the shape in exactly the overlapped cells with steps no
larger than cellSize is false. -/
theorem c1_counterexample :
    (ShapeData.rectangle ⟨⟨4, 1⟩, 8, 2⟩).getBounds = (0, 0, 8, 2) ∧
    cellOverlapsBox 2 ⟨1, 0⟩ 0 0 8 2 ∧
    ⟨1, 0⟩ ∉ addCoords 2 0 0 8 2 ∧
    cellMembers (((initialWorld 2).addShape 1 (.rectangle ⟨⟨4, 1⟩, 8, 2⟩)).grid) ⟨1, 0⟩ = [] ∧
    ¬ (stepFor 2 (8 - 0) ≤ 2) := by
  have hr3 : List.range ((2:ℤ).toNat + 1) = [0, 1, 2] := rfl
  have hr2 : List.range ((1:ℤ).toNat + 1) = [0, 1] := rfl
  have hr2' : List.range 2 = [0, 1] := rfl
  have hr3' : List.range 3 = [0, 1, 2] := rfl
  refine ⟨?_, ?_, ?_, ?_, ?_⟩
  · norm_num [ShapeData.getBounds, RectangleShape.getBounds]
  · norm_num [cellOverlapsBox]
  · norm_num [addCoords, stepFor, axisVals, coordOf, hr3, hr2, hr2', hr3']
  · norm_num [initialWorld, World.addShape, SpatialHash.addShape, addCoordsOf,
      ShapeData.getBounds, RectangleShape.getBounds, addCoords, stepFor, axisVals,
      coordOf, newSpatialHash, SpatialHash.insertShapeAt, cellMembers, backrefList,
      aset, alookup, hr3, hr2, hr2', hr3']
  · norm_num [stepFor]

/-- C1 (amended): Add steps across the bounding box with the per-axis
step of stepFor, which can exceed cellSize once the extent exceeds
cellSize squared.  When both extents are positive and at most cellSize
squared, the visited cells are exactly the cells the box overlaps; when
either extent is zero exactly one cell (that of the box's minimum
corner) is visited; and after two Adds sharing a touched cell,
GetCollisionCandidates on the later shape returns the earlier one. -/
theorem c1_add_steps_amended (m : ℤ) (hm : 0 < m) :
    (∀ x1 y1 x2 y2 : ℚ, 0 < x2 - x1 → 0 < y2 - y1 →
      x2 - x1 ≤ (m:ℚ) * m → y2 - y1 ≤ (m:ℚ) * m →
      ∀ c, c ∈ addCoords (m:ℚ) x1 y1 x2 y2 ↔ cellOverlapsBox (m:ℚ) c x1 y1 x2 y2) ∧
    (∀ x1 y1 x2 y2 : ℚ, x1 ≤ x2 → y1 ≤ y2 → (x1 = x2 ∨ y1 = y2) →
      addCoords (m:ℚ) x1 y1 x2 y2 = [coordOf (m:ℚ) x1 y1]) ∧
    (∀ (s : SpatialHash) (p q : ℕ) (pd qd : ShapeData) (c : CellCoord),
      s.cellSize = m → p ≠ q → c ∈ addCoordsOf s pd → c ∈ addCoordsOf s qd →
      some p ∈ ((s.addShape p pd).addShape q qd).getCollisionCandidates q) := by
  refine ⟨?_, ?_, ?_⟩
  · intro x1 y1 x2 y2 hx hy hxb hyb c
    exact mem_addCoords_iff m x1 y1 x2 y2 hm hx hy hxb hyb c
  · intro x1 y1 x2 y2 hx hy hz
    exact addCoords_degenerate _ _ _ _ _ hx hy hz
  · intro s p q pd qd c _ hpq hcp hcq
    exact candidates_after_two_adds s p q pd qd c hpq hcp hcq

/-- C1 (witness): the amended statement instantiated at cellSize 4, a
box of extent 8 on both axes, a degenerate box, and two coincident
zero-extent rectangles. -/
theorem c1_add_steps_amended_witness :
    ((0:ℤ) < 4) ∧
    ((∀ c, c ∈ addCoords ((4:ℤ):ℚ) 0 0 8 8 ↔ cellOverlapsBox ((4:ℤ):ℚ) c 0 0 8 8) ∧
     (addCoords ((4:ℤ):ℚ) 1 1 1 1 = [coordOf ((4:ℤ):ℚ) 1 1]) ∧
     (some 1 ∈ (((newSpatialHash 4).addShape 1 (.rectangle ⟨⟨0, 0⟩, 0, 0⟩)).addShape 2
        (.rectangle ⟨⟨0, 0⟩, 0, 0⟩)).getCollisionCandidates 2)) := by
  have h := c1_add_steps_amended 4 (by norm_num)
  refine ⟨by norm_num, fun c => h.1 0 0 8 8 (by norm_num) (by norm_num) (by norm_num)
    (by norm_num) c, h.2.1 1 1 1 1 le_rfl le_rfl (Or.inl rfl),
    h.2.2 (newSpatialHash 4) 1 2 _ _ ⟨0, 0⟩ rfl (by norm_num) ?_ ?_⟩
  · rw [addCoordsOf_zeroRect]
    exact List.mem_singleton.mpr rfl
  · rw [addCoordsOf_zeroRect]
    exact List.mem_singleton.mpr rfl

/-- C2 (confirmed): when the two rectangles' inclusive bounds are
disjoint on either axis collisionRectRect is the zero vector, and when
they overlap on both axes it returns the signed near-edge gap on an
axis of least absolute penetration with the other axis zeroed. -/
theorem c2_rect_rect_separation (r1 r2 : RectangleShape) (h1 : 0 ≤ r1.width)
    (h2 : 0 ≤ r1.height) (h3 : 0 ≤ r2.width) (h4 : 0 ≤ r2.height) :
    (¬ rectsOverlapIncl r1 r2 → collisionRectRect r1 r2 = ⟨0, 0⟩) ∧
    (rectsOverlapIncl r1 r2 →
      (collisionRectRect r1 r2 = ⟨pushX r1 r2, 0⟩ ∧ |pushX r1 r2| ≤ |pushY r1 r2|) ∨
      (collisionRectRect r1 r2 = ⟨0, pushY r1 r2⟩ ∧ |pushY r1 r2| ≤ |pushX r1 r2|)) := by
  rw [collisionRectRect_eq r1 r2 h1 h2 h3 h4]
  constructor
  · intro h
    rw [if_neg h]
  · intro h
    rw [if_pos h]
    by_cases hxy : |pushX r1 r2| < |pushY r1 r2|
    · exact Or.inl ⟨if_pos hxy, le_of_lt hxy⟩
    · exact Or.inr ⟨if_neg hxy, le_of_not_lt hxy⟩

/-- C2 (witness): the spec's numeric scenario: rectangle A centred at
the origin, 10 by 10, against rectangle B centred at (8, 0), 10 by 10:
the bounds overlap and the separating vector is (-2, 0). -/
theorem c2_rect_rect_separation_witness :
    rectsOverlapIncl ⟨⟨0, 0⟩, 10, 10⟩ ⟨⟨8, 0⟩, 10, 10⟩ ∧
    collisionRectRect ⟨⟨0, 0⟩, 10, 10⟩ ⟨⟨8, 0⟩, 10, 10⟩ = ⟨-2, 0⟩ := by
  have hov : rectsOverlapIncl ⟨⟨0, 0⟩, 10, 10⟩ ⟨⟨8, 0⟩, 10, 10⟩ := by
    norm_num [rectsOverlapIncl]
  have h := (c2_rect_rect_separation ⟨⟨0, 0⟩, 10, 10⟩ ⟨⟨8, 0⟩, 10, 10⟩ (by norm_num)
    (by norm_num) (by norm_num) (by norm_num)).2 hov
  have hpx : pushX ⟨⟨0, 0⟩, 10, 10⟩ ⟨⟨8, 0⟩, 10, 10⟩ = -2 := by
    norm_num [pushX]
  have hpy : pushY ⟨⟨0, 0⟩, 10, 10⟩ ⟨⟨8, 0⟩, 10, 10⟩ = 10 := by
    norm_num [pushY]
  refine ⟨hov, ?_⟩
  rcases h with ⟨he, _⟩ | ⟨he, hle⟩
  · rw [he, hpx]
  · rw [hpx, hpy] at hle
    norm_num at hle

/-- C3 (counterexample): for circle A at the origin of radius 5 and
circle B at (8, 0) of radius 5, the code returns (-2, 0) whereas the
claim's formula normalize(d) * depth with d from A's centre to B's
centre gives (2, 0): the claim's formula and its own expected value
disagree, and the code matches the expected value, not the formula. -/
theorem c3_counterexample :
    collisionCircCirc ⟨⟨0, 0⟩, 5⟩ ⟨⟨8, 0⟩, 5⟩ = ⟨-2, 0⟩ ∧
    circCircSpecVector ⟨⟨0, 0⟩, 5⟩ ⟨⟨8, 0⟩, 5⟩ = ⟨2, 0⟩ ∧
    collisionCircCirc ⟨⟨0, 0⟩, 5⟩ ⟨⟨8, 0⟩, 5⟩ ≠ circCircSpecVector ⟨⟨0, 0⟩, 5⟩ ⟨⟨8, 0⟩, 5⟩ := by
  refine ⟨circ_code_example, circ_spec_example, ?_⟩
  rw [circ_code_example, circ_spec_example]
  intro h
  have hx : (-2 : ℝ) = 2 := congrArg RVec.x h
  norm_num at hx

/-- C3 (amended): with d the vector from circle B's centre to circle A's
centre (c1.Pos.Sub(c2.Pos) in the code) and depth = radiusA + radiusB -
length d, collisionCircCirc returns the zero vector when depth < 0 and
normalize(d) * depth otherwise; when the centres are distinct, adding
the result to A's position leaves the circles exactly touching: the
distance of the moved centre of A from B's centre is radiusA + radiusB. -/
theorem c3_circ_circ_amended (a b : CircleShape) :
    (((a.radius : ℝ) + (b.radius : ℝ)) - (a.pos.toRVec.sub b.pos.toRVec).length < 0 →
      collisionCircCirc a b = ⟨0, 0⟩) ∧
    (0 ≤ ((a.radius : ℝ) + (b.radius : ℝ)) - (a.pos.toRVec.sub b.pos.toRVec).length →
      collisionCircCirc a b = (a.pos.toRVec.sub b.pos.toRVec).normalize.mult
        (((a.radius : ℝ) + (b.radius : ℝ)) - (a.pos.toRVec.sub b.pos.toRVec).length) ∧
      (0 < (a.pos.toRVec.sub b.pos.toRVec).length →
        ((a.pos.toRVec.add (collisionCircCirc a b)).sub b.pos.toRVec).length =
          (a.radius : ℝ) + (b.radius : ℝ))) := by
  constructor
  · intro h
    simp only [collisionCircCirc]
    rw [if_pos h]
  · intro h
    have heq : collisionCircCirc a b = (a.pos.toRVec.sub b.pos.toRVec).normalize.mult
        (((a.radius : ℝ) + (b.radius : ℝ)) - (a.pos.toRVec.sub b.pos.toRVec).length) := by
      simp only [collisionCircCirc]
      rw [if_neg (not_lt.mpr h)]
    refine ⟨heq, ?_⟩
    intro hL
    rw [heq, add_sub_swap]
    exact circCirc_separation _ _ _ hL h

/-- C3 (witness): the amended statement at the concrete circles of the
spec scenario, where depth = 2 is nonnegative and the centre distance 8
is positive, so the returned vector leaves the circles touching at
distance 10. -/
theorem c3_circ_circ_amended_witness :
    (0 ≤ (((5:ℚ) : ℝ) + ((5:ℚ) : ℝ)) -
      ((Vector.toRVec ⟨0, 0⟩).sub (Vector.toRVec ⟨8, 0⟩)).length) ∧
    (0 < ((Vector.toRVec ⟨0, 0⟩).sub (Vector.toRVec ⟨8, 0⟩)).length) ∧
    (((Vector.toRVec ⟨0, 0⟩).add
        (collisionCircCirc ⟨⟨0, 0⟩, 5⟩ ⟨⟨8, 0⟩, 5⟩)).sub (Vector.toRVec ⟨8, 0⟩)).length =
      ((5:ℚ) : ℝ) + ((5:ℚ) : ℝ) := by
  have hd : (Vector.toRVec ⟨0, 0⟩).sub (Vector.toRVec ⟨8, 0⟩) = ⟨-8, 0⟩ := by
    simp only [Vector.toRVec, RVec.sub]
    norm_num
  have hlen : ((Vector.toRVec ⟨0, 0⟩).sub (Vector.toRVec ⟨8, 0⟩)).length = 8 := by
    rw [hd]
    simp only [RVec.length]
    norm_num [sqrt_sixtyfour]
  have hdep : 0 ≤ (((5:ℚ) : ℝ) + ((5:ℚ) : ℝ)) -
      ((Vector.toRVec ⟨0, 0⟩).sub (Vector.toRVec ⟨8, 0⟩)).length := by
    rw [hlen]
    norm_num
  have hpos : 0 < ((Vector.toRVec ⟨0, 0⟩).sub (Vector.toRVec ⟨8, 0⟩)).length := by
    rw [hlen]
    norm_num
  exact ⟨hdep, hpos, ((c3_circ_circ_amended ⟨⟨0, 0⟩, 5⟩ ⟨⟨8, 0⟩, 5⟩).2 hdep).2 hpos⟩

/-- Hash with two coincident zero-extent rectangles, both in cell (0, 0). -/
def twoShapeHash : SpatialHash :=
  ((newSpatialHash 1).addShape 1 (.rectangle ⟨⟨0, 0⟩, 0, 0⟩)).addShape 2
    (.rectangle ⟨⟨0, 0⟩, 0, 0⟩)

/-- C4 (code_bug): GetCollisionCandidates allocates the result slice
with make([]Shape, len(shapesMap)) and then appends, so for a query with
one genuine candidate the returned slice is [nil, candidate]: it
contains a nil entry that is not a shape of any cell's member set,
contradicting the claim that every returned element comes from the union
of the queried shape's cells. -/
theorem c4_candidates_nil_entries :
    backrefList twoShapeHash 1 = [⟨0, 0⟩] ∧
    cellMembers twoShapeHash ⟨0, 0⟩ = [1, 2] ∧
    twoShapeHash.getCollisionCandidates 1 = [none, some 2] ∧
    none ∈ twoShapeHash.getCollisionCandidates 1 := by
  have hb : backrefList twoShapeHash 1 = [⟨0, 0⟩] := by
    norm_num [twoShapeHash, SpatialHash.addShape, addCoordsOf_zeroRect, newSpatialHash,
      SpatialHash.insertShapeAt, cellMembers, backrefList, aset, alookup]
  have hm : cellMembers twoShapeHash ⟨0, 0⟩ = [1, 2] := by
    norm_num [twoShapeHash, SpatialHash.addShape, addCoordsOf_zeroRect, newSpatialHash,
      SpatialHash.insertShapeAt, cellMembers, backrefList, aset, alookup]
  have hc : twoShapeHash.getCollisionCandidates 1 = [none, some 2] := by
    rw [SpatialHash.getCollisionCandidates, hb]
    norm_num [hm, dedupInsert]
  exact ⟨hb, hm, hc, by rw [hc]; exact List.mem_cons_self _ _⟩

/-- C5 (confirmed): along every valid operation sequence on a fresh
grid, each shape's backref list names exactly the cells whose member set
contains it, and a further Remove leaves the shape in no cell with an
empty backref list. -/
theorem c5_backref_cell_consistency (cs : ℤ) (ops : List GridOp)
    (hv : (initialWorld cs).validSeq ops = true) :
    (((initialWorld cs).applyOps ops).grid.consistent) ∧
    (∀ id, backrefList ((((initialWorld cs).applyOps ops).removeShape id).1.grid) id = [] ∧
      ∀ c, id ∉ cellMembers ((((initialWorld cs).applyOps ops).removeShape id).1.grid) c) := by
  have hwf := gridWF_applyOps ops (initialWorld cs) (gridWF_initialWorld cs) hv
  refine ⟨hwf.1, ?_⟩
  intro id
  rw [removeShape_grid]
  exact removeShape_clears ((initialWorld cs).applyOps ops).grid id hwf.1 hwf.2

/-- Operation sequence exercising Add, Move, Remove and MoveTo. -/
def sampleOps : List GridOp :=
  [.add 1 (.rectangle ⟨⟨0, 0⟩, 0, 0⟩), .add 2 (.circle ⟨⟨0, 0⟩, 0⟩),
   .move 1 1 1, .remove 2, .moveTo 1 0 0]

/-- C5 (witness): the consistency statement instantiated on a concrete
valid sequence of all four operations. -/
theorem c5_backref_cell_consistency_witness :
    ((initialWorld 1).validSeq sampleOps = true) ∧
    ((((initialWorld 1).applyOps sampleOps).grid.consistent) ∧
     (∀ id, backrefList ((((initialWorld 1).applyOps sampleOps).removeShape id).1.grid) id = [] ∧
       ∀ c, id ∉ cellMembers ((((initialWorld 1).applyOps sampleOps).removeShape id).1.grid) c)) := by
  have hv : (initialWorld 1).validSeq sampleOps = true := by
    norm_num [sampleOps, initialWorld, World.validSeq, World.validOp, World.applyOp,
      World.addShape, World.removeShape, World.moveShape, World.moveToShape,
      SpatialHash.addShape, SpatialHash.removeShape, addCoordsOf, ShapeData.getBounds,
      RectangleShape.getBounds, CircleShape.getBounds, ShapeData.moveBy, ShapeData.moveToPos,
      addCoords, stepFor, coordOf, newSpatialHash, SpatialHash.insertShapeAt, cellMembers,
      backrefList, aset, alookup, aupdate]
  exact ⟨hv, c5_backref_cell_consistency 1 sampleOps hv⟩

/-- Hash with one registered zero-extent rectangle in cell (0, 0). -/
def oneShapeHash : SpatialHash :=
  (newSpatialHash 1).addShape 1 (.rectangle ⟨⟨0, 0⟩, 0, 0⟩)

/-- C6 (code_bug): Remove returns ErrShapeNotFound on every path, also
when it is invoked on a registered shape whose removal it completes, so
it does not signal NotFound if and only if the shape was unregistered
and never reports success. -/
theorem c6_remove_always_not_found :
    (∀ (s : SpatialHash) (id : ℕ), (s.removeShape id).2 = GoError.shapeNotFound) ∧
    backrefList oneShapeHash 1 = [⟨0, 0⟩] ∧
    (oneShapeHash.removeShape 1).2 = GoError.shapeNotFound ∧
    backrefList (oneShapeHash.removeShape 1).1 1 = [] ∧
    1 ∉ cellMembers (oneShapeHash.removeShape 1).1 ⟨0, 0⟩ := by
  have hb : backrefList oneShapeHash 1 = [⟨0, 0⟩] := by
    norm_num [oneShapeHash, SpatialHash.addShape, addCoordsOf_zeroRect, newSpatialHash,
      SpatialHash.insertShapeAt, cellMembers, backrefList, aset, alookup]
  have hnd : ∀ c, (cellMembers oneShapeHash c).Nodup := by
    intro c
    unfold oneShapeHash SpatialHash.addShape
    exact nodup_cellMembers_foldInsert _ _ _ (membersNodup_newSpatialHash 1) c
  refine ⟨error_removeShape, hb, error_removeShape _ _, ?_, ?_⟩
  · rw [backrefList_removeShape, if_pos rfl]
  · intro hmem
    rw [mem_cellMembers_removeShape _ _ _ _ hnd] at hmem
    rcases hmem with ⟨hin, hni⟩
    exact hni ⟨rfl, by rw [hb]; exact List.mem_singleton.mpr rfl⟩

/-- C7 (counterexample): NewSpatialHash performs no validation: applied
to 0 and to -5 it returns ordinary grids whose cell size is not
positive, rather than failing. -/
theorem c7_counterexample :
    ¬ (0 < (newSpatialHash 0).cellSize) ∧ ¬ (0 < (newSpatialHash (-5)).cellSize) ∧
    newSpatialHash 0 = { cellSize := 0, hash := [], backref := [] } ∧
    newSpatialHash (-5) = { cellSize := -5, hash := [], backref := [] } := by
  exact ⟨by decide, by decide, rfl, rfl⟩

/-- C7 (amended): grid construction never fails and performs no
validation: for every cell size, including zero and negative ones, it
returns a grid storing that cell size with empty maps; NewSpatialHash
128 in particular yields a positive cell size. -/
theorem c7_no_validation_amended :
    (∀ n : ℤ, (newSpatialHash n).cellSize = n ∧ (newSpatialHash n).hash = [] ∧
      (newSpatialHash n).backref = []) ∧
    0 < (newSpatialHash 128).cellSize := by
  exact ⟨fun n => ⟨rfl, rfl, rfl⟩, by decide⟩

/-- World with a rectangle (handle 1) and a directly added PointShape
(handle 2) sharing cell (0, 0). -/
def pointPairWorld : World :=
  ((initialWorld 1).addShape 1 (.rectangle ⟨⟨0, 0⟩, 0, 0⟩)).addShape 2 (.point ⟨⟨0, 0⟩, 0, 0⟩)

/-- C8 (code_bug): the PointShape candidate co-resident with the
rectangle reaches the TODO-error default branch of the type switch and
is silently dropped: CheckCollisions returns the empty list for both
shapes, indistinguishable from no collision, and no
UnsupportedShapePair condition exists in the code. -/
theorem c8_silent_skip :
    some 2 ∈ pointPairWorld.grid.getCollisionCandidates 1 ∧
    pointPairWorld.checkCollisions 1 = [] ∧
    pointPairWorld.checkCollisions 2 = [] := by
  have hb : backrefList pointPairWorld.grid 1 = [⟨0, 0⟩] := by
    norm_num [pointPairWorld, initialWorld, World.addShape, SpatialHash.addShape,
      addCoordsOf, ShapeData.getBounds, RectangleShape.getBounds, addCoords_zero,
      coordOf_zero, addCoords, stepFor, coordOf, newSpatialHash,
      SpatialHash.insertShapeAt, cellMembers, backrefList, aset, alookup]
  have hm : cellMembers pointPairWorld.grid ⟨0, 0⟩ = [1, 2] := by
    norm_num [pointPairWorld, initialWorld, World.addShape, SpatialHash.addShape,
      addCoordsOf, ShapeData.getBounds, RectangleShape.getBounds, addCoords_zero,
      coordOf_zero, addCoords, stepFor, coordOf, newSpatialHash,
      SpatialHash.insertShapeAt, cellMembers, backrefList, aset, alookup]
  have hcand : pointPairWorld.grid.getCollisionCandidates 1 = [none, some 2] := by
    rw [SpatialHash.getCollisionCandidates, hb]
    norm_num [hm, dedupInsert]
  have hsh : alookup pointPairWorld.shapes 1 =
      some (.rectangle ⟨⟨0, 0⟩, 0, 0⟩) := by
    norm_num [pointPairWorld, initialWorld, World.addShape, aset, alookup]
  have hsh2 : alookup pointPairWorld.shapes 2 = some (.point ⟨⟨0, 0⟩, 0, 0⟩) := by
    norm_num [pointPairWorld, initialWorld, World.addShape, aset, alookup]
  refine ⟨by rw [hcand]; exact List.mem_cons_of_mem _ (List.mem_singleton.mpr rfl), ?_, ?_⟩
  · rw [World.checkCollisions, hsh, hcand]
    simp [hsh2]
  · rw [World.checkCollisions, hsh2]

/-- World holding one circle whose SpatialHash pointer is unset. -/
def hashlessWorld : World :=
  { grid := newSpatialHash 1, shapes := [(1, .circle ⟨⟨3, 4⟩, 5⟩)], hasHash := [] }

/-- C9 (counterexample): Move and MoveTo on a shape with no recorded
grid dereference the nil hash pointer inside Remove and panic (reported
as a false completion flag) instead of completing without failure; the
position mutation does happen before the panic. -/
theorem c9_counterexample :
    (hashlessWorld.moveShape 1 2 3).2 = false ∧
    (hashlessWorld.moveToShape 1 7 8).2 = false ∧
    alookup (hashlessWorld.moveShape 1 2 3).1.shapes 1 =
      some (.circle ⟨⟨3 + 2, 4 + 3⟩, 5⟩) := by
  refine ⟨?_, ?_, ?_⟩
  · simp [hashlessWorld, World.moveShape]
  · simp [hashlessWorld, World.moveToShape]
  · simp [hashlessWorld, World.moveShape, aupdate, alookup, ShapeData.moveBy]

/-- C9 (amended): on a shape with no recorded grid, Move and MoveTo
update the shape's position (by the offset, respectively to the absolute
coordinates), leave the grid untouched, and then fail with a nil
dereference panic rather than completing. -/
theorem c9_move_panics_amended (w : World) (id : ℕ) (dx dy x y : ℚ)
    (h : id ∉ w.hasHash) :
    ((w.moveShape id dx dy).2 = false ∧
     (w.moveShape id dx dy).1.grid = w.grid ∧
     alookup (w.moveShape id dx dy).1.shapes id =
       (alookup w.shapes id).map (fun sd => sd.moveBy dx dy)) ∧
    ((w.moveToShape id x y).2 = false ∧
     (w.moveToShape id x y).1.grid = w.grid ∧
     alookup (w.moveToShape id x y).1.shapes id =
       (alookup w.shapes id).map (fun sd => sd.moveToPos x y)) := by
  constructor
  · have h2 : w.moveShape id dx dy =
        ({ w with shapes := aupdate (fun sd => sd.moveBy dx dy) w.shapes id }, false) := by
      simp only [World.moveShape, if_neg h]
    rw [h2]
    exact ⟨rfl, rfl, alookup_aupdate_self _ _ _⟩
  · have h2 : w.moveToShape id x y =
        ({ w with shapes := aupdate (fun sd => sd.moveToPos x y) w.shapes id }, false) := by
      simp only [World.moveToShape, if_neg h]
    rw [h2]
    exact ⟨rfl, rfl, alookup_aupdate_self _ _ _⟩

/-- C9 (witness): the amended statement at the hashless circle world. -/
theorem c9_move_panics_amended_witness :
    ((1 : ℕ) ∉ hashlessWorld.hasHash) ∧
    (((hashlessWorld.moveShape 1 2 3).2 = false ∧
      (hashlessWorld.moveShape 1 2 3).1.grid = hashlessWorld.grid ∧
      alookup (hashlessWorld.moveShape 1 2 3).1.shapes 1 =
        (alookup hashlessWorld.shapes 1).map (fun sd => sd.moveBy 2 3)) ∧
     ((hashlessWorld.moveToShape 1 7 8).2 = false ∧
      (hashlessWorld.moveToShape 1 7 8).1.grid = hashlessWorld.grid ∧
      alookup (hashlessWorld.moveToShape 1 7 8).1.shapes 1 =
        (alookup hashlessWorld.shapes 1).map (fun sd => sd.moveToPos 7 8))) := by
  have h : (1 : ℕ) ∉ hashlessWorld.hasHash := by
    simp [hashlessWorld]
  exact ⟨h, c9_move_panics_amended hashlessWorld 1 2 3 7 8 h⟩

/-- C10 (confirmed): NewPointShape ignores its x and y arguments: the
created shape is a rectangle at position (0, 0) with zero extent,
registered exactly in cell (0, 0), the cell containing the origin. -/
theorem c10_point_shape_ignores_args (w : World) (id : ℕ) (x y : ℚ)
    (hcs : 0 < w.grid.cellSize) (hfresh : backrefList w.grid id = []) :
    w.newPointShape id x y = w.newPointShape id 0 0 ∧
    alookup (w.newPointShape id x y).shapes id = some (.rectangle ⟨⟨0, 0⟩, 0, 0⟩) ∧
    backrefList (w.newPointShape id x y).grid id = [⟨0, 0⟩] ∧
    id ∈ cellMembers (w.newPointShape id x y).grid ⟨0, 0⟩ := by
  refine ⟨rfl, ?_, ?_, ?_⟩
  · simp only [World.newPointShape, World.newRectangleShape, World.addShape]
    exact alookup_aset_self _ _ _
  · simp only [World.newPointShape, World.newRectangleShape, World.addShape]
    rw [backrefList_addShape, if_pos rfl, hfresh, addCoordsOf_zeroRect]
    rfl
  · simp only [World.newPointShape, World.newRectangleShape, World.addShape]
    rw [mem_cellMembers_addShape, addCoordsOf_zeroRect]
    exact Or.inr ⟨rfl, List.mem_singleton.mpr rfl⟩

/-- C10 (witness): the statement at a fresh grid of cell size 128 with
arguments (7, 9), which have no effect. -/
theorem c10_point_shape_ignores_args_witness :
    (0 < (initialWorld 128).grid.cellSize) ∧
    (backrefList (initialWorld 128).grid 1 = []) ∧
    ((initialWorld 128).newPointShape 1 7 9 = (initialWorld 128).newPointShape 1 0 0 ∧
     alookup ((initialWorld 128).newPointShape 1 7 9).shapes 1 =
       some (.rectangle ⟨⟨0, 0⟩, 0, 0⟩) ∧
     backrefList ((initialWorld 128).newPointShape 1 7 9).grid 1 = [⟨0, 0⟩] ∧
     1 ∈ cellMembers ((initialWorld 128).newPointShape 1 7 9).grid ⟨0, 0⟩) := by
  exact ⟨by decide, rfl, c10_point_shape_ignores_args (initialWorld 128) 1 7 9 (by decide) rfl⟩

end Collider
